import Mathlib

/-!
Verification of the hello-world counter program
(`src/program-rust/src/lib.rs`): a Solana on-chain program whose single
entrypoint `process_instruction` selects the first account, checks that it
is owned by the invoking program, borsh-decodes a `GreetingAccount` record
(one little-endian `u32` field `counter`) from the account's byte buffer,
increments the counter, and serializes the record back in place.

The embedding models bytes as `Nat` (well-formed bytes are `< 256`),
public keys as opaque `Nat` identities, and the `u32` counter as a `Nat`
with explicit wraparound `% 2^32` (the on-chain build is a release build,
where `+=` on `u32` wraps).
-/

/-- Opaque public-key identity (`solana_program::pubkey::Pubkey`). -/
abbrev Pubkey := Nat

/-- Errors the handler can return (`solana_program::program_error::ProgramError`).
`NotEnoughAccountKeys` is produced by `next_account_info` on an empty
iterator; `IncorrectProgramId` by the ownership check; `BorshIoError`
wraps the message of a borsh serialization or deserialization failure. -/
inductive ProgramError where
  | NotEnoughAccountKeys : ProgramError
  | IncorrectProgramId : ProgramError
  | BorshIoError : String → ProgramError
deriving DecidableEq, Repr

/-- One account handle (`solana_program::account_info::AccountInfo`):
owner identity, balance, raw byte buffer, and metadata flags. -/
structure AccountInfo where
  key : Pubkey
  lamports : Nat
  data : List Nat
  owner : Pubkey
  rent_epoch : Nat
  is_signer : Bool
  is_writable : Bool
  executable : Bool
deriving DecidableEq, Repr

/-- The persisted state record (`GreetingAccount` in the source):
a single unsigned 32-bit `counter`. -/
structure GreetingAccount where
  counter : Nat
deriving DecidableEq, Repr

/-- Borsh deserialization of a `u32`: consume exactly 4 bytes,
little-endian; fail if fewer than 4 bytes remain
(borsh: "Unexpected length of input"). Returns the value and the
unconsumed rest of the buffer. -/
def deserializeU32 (b : List Nat) : Except ProgramError (Nat × List Nat) :=
  match b with
  | b0 :: b1 :: b2 :: b3 :: rest =>
      .ok (b0 + 2 ^ 8 * b1 + 2 ^ 16 * b2 + 2 ^ 24 * b3, rest)
  | _ => .error (.BorshIoError "Unexpected length of input")

/-- `GreetingAccount::try_from_slice` (borsh): deserialize the single
`u32` field, then require that the whole input was consumed
(borsh: "Not all bytes read" when trailing bytes remain). -/
def GreetingAccount.try_from_slice (b : List Nat) :
    Except ProgramError GreetingAccount :=
  match deserializeU32 b with
  | .ok (v, []) => .ok ⟨v⟩
  | .ok (_, _ :: _) => .error (.BorshIoError "Not all bytes read")
  | .error e => .error e

/-- The 4 little-endian bytes of a `u32` value (`u32::to_le_bytes`);
only the low 32 bits of the `Nat` contribute. -/
def u32ToLeBytes (v : Nat) : List Nat :=
  [v % 2 ^ 8, v / 2 ^ 8 % 2 ^ 8, v / 2 ^ 16 % 2 ^ 8, v / 2 ^ 24 % 2 ^ 8]

/-- `greeting_account.serialize(&mut &mut account.data.borrow_mut()[..])`:
borsh-serialize the record into the front of the mutable buffer through
the `io::Write` instance of `&mut [u8]`. If the buffer holds at least 4
bytes the 4 record bytes overwrite the front and the rest is untouched;
otherwise `write_all` fills what fits and fails with
"failed to write whole buffer". Returns the result together with the
buffer's new contents. -/
def serializeInto (g : GreetingAccount) (buf : List Nat) :
    Except ProgramError Unit × List Nat :=
  let bytes := u32ToLeBytes g.counter
  if 4 ≤ buf.length then
    (.ok (), bytes ++ buf.drop 4)
  else
    (.error (.BorshIoError "failed to write whole buffer"), bytes.take buf.length)

/-- The program entrypoint `process_instruction`. Returns the handler's
result together with the final account sequence (the Rust code mutates
the first account's buffer in place through a `RefCell`; here the state
is passed explicitly). The instruction payload is received but unused,
exactly as in the source. -/
def process_instruction (program_id : Pubkey) (accounts : List AccountInfo)
    (_instruction_data : List Nat) :
    Except ProgramError Unit × List AccountInfo :=
  match accounts with
  | [] => (.error .NotEnoughAccountKeys, [])
  | account :: rest =>
    if account.owner ≠ program_id then
      (.error .IncorrectProgramId, account :: rest)
    else
      match GreetingAccount.try_from_slice account.data with
      | .error e => (.error e, account :: rest)
      | .ok greeting_account =>
        let updated : GreetingAccount := ⟨(greeting_account.counter + 1) % 2 ^ 32⟩
        match serializeInto updated account.data with
        | (.ok _, newData) => (.ok (), { account with data := newData } :: rest)
        | (.error e, newData) => (.error e, { account with data := newData } :: rest)

/-- Repeated invocation: thread the account state through `n` successive
calls of the handler with the same program identity and payload. -/
def iterateHandle (pid : Pubkey) (payload : List Nat) :
    Nat → List AccountInfo → List AccountInfo
  | 0, accounts => accounts
  | n + 1, accounts => iterateHandle pid payload n (process_instruction pid accounts payload).2

/-- Everything of an account except its byte buffer. -/
def accountMeta (a : AccountInfo) : Pubkey × Nat × Pubkey × Nat × Bool × Bool × Bool :=
  (a.key, a.lamports, a.owner, a.rent_epoch, a.is_signer, a.is_writable, a.executable)

/-- A concrete account handle with the given owner and byte buffer,
used to instantiate the theorems at concrete inputs. -/
def baseAccount (o : Pubkey) (d : List Nat) : AccountInfo :=
  { key := 0, lamports := 0, data := d, owner := o, rent_epoch := 0,
    is_signer := false, is_writable := true, executable := false }

/-- An account owned by program 7 whose buffer is 5 bytes long. -/
def longAccount : AccountInfo := baseAccount 7 [1, 0, 0, 0, 0]

-- Basic codec lemmas shared by the claim theorems.

theorem try_from_slice_u32ToLeBytes (c : Nat) :
    GreetingAccount.try_from_slice (u32ToLeBytes c) = .ok ⟨c % 2 ^ 32⟩ := by
  simp only [GreetingAccount.try_from_slice, u32ToLeBytes, deserializeU32]
  congr 1
  congr 1
  omega

theorem u32ToLeBytes_reconstruct (b0 b1 b2 b3 : Nat)
    (h0 : b0 < 256) (h1 : b1 < 256) (h2 : b2 < 256) (h3 : b3 < 256) :
    u32ToLeBytes (b0 + 2 ^ 8 * b1 + 2 ^ 16 * b2 + 2 ^ 24 * b3) = [b0, b1, b2, b3] := by
  simp only [u32ToLeBytes, List.cons.injEq, and_true]
  refine ⟨?_, ?_, ?_, ?_⟩ <;> omega

theorem u32ToLeBytes_length (v : Nat) : (u32ToLeBytes v).length = 4 := rfl

theorem try_from_slice_short (b : List Nat) (h : b.length < 4) :
    GreetingAccount.try_from_slice b =
      .error (.BorshIoError "Unexpected length of input") := by
  match b with
  | [] => rfl
  | [_] => rfl
  | [_, _] => rfl
  | [_, _, _] => rfl
  | _ :: _ :: _ :: _ :: _ =>
      exact absurd h (by simp only [List.length_cons]; omega)

theorem try_from_slice_ok_length (b : List Nat) (g : GreetingAccount)
    (h : GreetingAccount.try_from_slice b = .ok g) : b.length = 4 := by
  match b with
  | [] => exact absurd h (by simp [GreetingAccount.try_from_slice, deserializeU32])
  | [_] => exact absurd h (by simp [GreetingAccount.try_from_slice, deserializeU32])
  | [_, _] => exact absurd h (by simp [GreetingAccount.try_from_slice, deserializeU32])
  | [_, _, _] => exact absurd h (by simp [GreetingAccount.try_from_slice, deserializeU32])
  | [_, _, _, _] => rfl
  | _ :: _ :: _ :: _ :: _ :: _ =>
      exact absurd h (by simp [GreetingAccount.try_from_slice, deserializeU32])

theorem serializeInto_four (g : GreetingAccount) (b0 b1 b2 b3 : Nat) :
    serializeInto g [b0, b1, b2, b3] = (.ok (), u32ToLeBytes g.counter) := by
  simp [serializeInto]

theorem process_success (pid : Pubkey) (payload : List Nat) (a : AccountInfo)
    (rest : List AccountInfo) (b0 b1 b2 b3 : Nat)
    (hown : a.owner = pid) (hdata : a.data = [b0, b1, b2, b3]) :
    process_instruction pid (a :: rest) payload =
      (.ok (), { a with
        data := u32ToLeBytes ((b0 + 2 ^ 8 * b1 + 2 ^ 16 * b2 + 2 ^ 24 * b3 + 1) % 2 ^ 32) }
        :: rest) := by
  simp [process_instruction, hown, hdata, GreetingAccount.try_from_slice,
    deserializeU32, serializeInto]

theorem process_unauthorized (pid : Pubkey) (payload : List Nat) (a : AccountInfo)
    (rest : List AccountInfo) (h : a.owner ≠ pid) :
    process_instruction pid (a :: rest) payload =
      (.error .IncorrectProgramId, a :: rest) := by
  simp [process_instruction, h]

/-- Every invocation either leaves the account sequence unchanged or
replaces only the first account's byte buffer. -/
theorem process_shape (pid : Pubkey) (accounts : List AccountInfo)
    (payload : List Nat) :
    (process_instruction pid accounts payload).2 = accounts ∨
    ∃ a rest d, accounts = a :: rest ∧
      (process_instruction pid accounts payload).2 = { a with data := d } :: rest := by
  match accounts with
  | [] => left; rfl
  | a :: rest =>
    by_cases h : a.owner = pid
    · cases hdec : GreetingAccount.try_from_slice a.data with
      | error e =>
          left; simp [process_instruction, h, hdec]
      | ok g =>
          rcases hser : serializeInto ⟨(g.counter + 1) % 2 ^ 32⟩ a.data with ⟨r, d⟩
          have hser2 : serializeInto ⟨(g.counter + 1) % 4294967296⟩ a.data = (r, d) := hser
          cases r with
          | ok u =>
              exact .inr ⟨a, rest, d, rfl, by simp [process_instruction, h, hdec, hser2]⟩
          | error e =>
              exact .inr ⟨a, rest, d, rfl, by simp [process_instruction, h, hdec, hser2]⟩
    · left; simp [process_instruction, h]

theorem list_length_four {α : Type} (l : List α) (h : l.length = 4) :
    ∃ b0 b1 b2 b3, l = [b0, b1, b2, b3] := by
  match l with
  | [b0, b1, b2, b3] => exact ⟨b0, b1, b2, b3, rfl⟩
  | [] | [_] | [_, _] | [_, _, _] => simp at h
  | _ :: _ :: _ :: _ :: _ :: _ =>
      exact absurd h (by simp only [List.length_cons]; omega)

theorem try_from_slice_error_cases (b : List Nat) (e : ProgramError)
    (h : GreetingAccount.try_from_slice b = .error e) :
    e = .BorshIoError "Unexpected length of input" ∨
    e = .BorshIoError "Not all bytes read" := by
  match b with
  | [] | [_] | [_, _] | [_, _, _] => exact .inl (Except.error.inj h).symm
  | [_, _, _, _] =>
      exact absurd h (by simp [GreetingAccount.try_from_slice, deserializeU32])
  | _ :: _ :: _ :: _ :: _ :: _ => exact .inr (Except.error.inj h).symm

-- Claim theorems.

/-- Claim C1: when the account sequence is non-empty, the first account is
owned by the invoking program, and its buffer is the well-formed 4-byte
encoding of a counter value `c < 2^32`, the handler returns success and
the counter decoded from that account's buffer afterwards is
`(c + 1) mod 2^32`. -/
theorem c1_counter_increment (pid : Pubkey) (payload : List Nat)
    (a : AccountInfo) (rest : List AccountInfo) (c : Nat) (hc : c < 2 ^ 32)
    (hown : a.owner = pid) (hdata : a.data = u32ToLeBytes c) :
    (process_instruction pid (a :: rest) payload).1 = .ok () ∧
    ∃ a', (process_instruction pid (a :: rest) payload).2 = a' :: rest ∧
      GreetingAccount.try_from_slice a'.data = .ok ⟨(c + 1) % 2 ^ 32⟩ := by
  have hp := process_success pid payload a rest (c % 2 ^ 8) (c / 2 ^ 8 % 2 ^ 8)
    (c / 2 ^ 16 % 2 ^ 8) (c / 2 ^ 24 % 2 ^ 8) hown hdata
  have hval : c % 2 ^ 8 + 2 ^ 8 * (c / 2 ^ 8 % 2 ^ 8) + 2 ^ 16 * (c / 2 ^ 16 % 2 ^ 8)
      + 2 ^ 24 * (c / 2 ^ 24 % 2 ^ 8) = c := by omega
  rw [hval] at hp
  refine ⟨by rw [hp], { a with data := u32ToLeBytes ((c + 1) % 2 ^ 32) }, by rw [hp], ?_⟩
  rw [try_from_slice_u32ToLeBytes]
  congr 2
  omega

theorem c1_witness :
    (process_instruction 1 [baseAccount 1 (u32ToLeBytes 5)] []).1 = .ok () ∧
    ∃ a', (process_instruction 1 [baseAccount 1 (u32ToLeBytes 5)] []).2 = a' :: [] ∧
      GreetingAccount.try_from_slice a'.data = .ok ⟨(5 + 1) % 2 ^ 32⟩ :=
  c1_counter_increment 1 [] (baseAccount 1 (u32ToLeBytes 5)) [] 5 (by decide) rfl rfl

/-- Claim C2: every invocation mutates at most the first account's byte
buffer: all non-buffer attributes of every account, and every account
other than the first, are unchanged. -/
theorem c2_frame (pid : Pubkey) (accounts : List AccountInfo) (payload : List Nat) :
    ((process_instruction pid accounts payload).2).map accountMeta =
      accounts.map accountMeta ∧
    ((process_instruction pid accounts payload).2).drop 1 = accounts.drop 1 := by
  rcases process_shape pid accounts payload with h | ⟨a, rest, d, rfl, h⟩
  · rw [h]; exact ⟨rfl, rfl⟩
  · rw [h]
    exact ⟨by simp [accountMeta], by simp⟩

/-- Claim C3: when the first account's owner differs from the invoking
program's identity the handler returns `IncorrectProgramId`
(the `UnauthorizedAccount` error) and the account sequence — the byte
buffer included — is unchanged, for any number of repeated calls. -/
theorem c3_unauthorized (pid : Pubkey) (payload : List Nat) (a : AccountInfo)
    (rest : List AccountInfo) (h : a.owner ≠ pid) :
    (process_instruction pid (a :: rest) payload).1 = .error .IncorrectProgramId ∧
    (process_instruction pid (a :: rest) payload).2 = a :: rest ∧
    ∀ n, iterateHandle pid payload n (a :: rest) = a :: rest := by
  have hp := process_unauthorized pid payload a rest h
  refine ⟨by rw [hp], by rw [hp], ?_⟩
  intro n
  induction n with
  | zero => rfl
  | succ k ih =>
      show iterateHandle pid payload k (process_instruction pid (a :: rest) payload).2
          = a :: rest
      rw [hp]
      exact ih

theorem c3_witness :
    (process_instruction 1 [baseAccount 2 [0, 0, 0, 0]] []).1 =
      .error .IncorrectProgramId ∧
    iterateHandle 1 [] 3 [baseAccount 2 [0, 0, 0, 0]] = [baseAccount 2 [0, 0, 0, 0]] :=
  ⟨(c3_unauthorized 1 [] (baseAccount 2 [0, 0, 0, 0]) [] (by decide)).1,
   (c3_unauthorized 1 [] (baseAccount 2 [0, 0, 0, 0]) [] (by decide)).2.2 3⟩

/-- Claim C4: with an empty account sequence the handler returns
`NotEnoughAccountKeys` (the `MissingAccount` error) and the final state
is the unchanged empty sequence — no side effect. -/
theorem c4_missing_account (pid : Pubkey) (payload : List Nat) :
    process_instruction pid [] payload = (.error .NotEnoughAccountKeys, []) := rfl

/-- Claim C5: when the first account is owned by the invoking program but
its buffer is shorter than 4 bytes, the handler returns the borsh decode
error (the `MalformedRecord` error) and the account sequence — the byte
buffer included — is unchanged. -/
theorem c5_short_buffer (pid : Pubkey) (payload : List Nat) (a : AccountInfo)
    (rest : List AccountInfo) (hown : a.owner = pid) (hlen : a.data.length < 4) :
    (process_instruction pid (a :: rest) payload).1 =
      .error (.BorshIoError "Unexpected length of input") ∧
    (process_instruction pid (a :: rest) payload).2 = a :: rest := by
  have hdec := try_from_slice_short a.data hlen
  constructor <;> simp [process_instruction, hown, hdec]

theorem c5_witness :
    (process_instruction 1 [baseAccount 1 [9, 9]] []).1 =
      .error (.BorshIoError "Unexpected length of input") ∧
    (process_instruction 1 [baseAccount 1 [9, 9]] []).2 = [baseAccount 1 [9, 9]] :=
  ⟨(c5_short_buffer 1 [] (baseAccount 1 [9, 9]) [] rfl (by decide)).1,
   (c5_short_buffer 1 [] (baseAccount 1 [9, 9]) [] rfl (by decide)).2⟩

/-- Claim C6 counterexample: an owned account whose buffer is 5 bytes long
(length at least 4) makes the handler fail, because borsh's
`try_from_slice` rejects trailing bytes; the decode step does not succeed
and the handler does not return success. -/
theorem c6_counterexample :
    longAccount.owner = 7 ∧ 4 ≤ longAccount.data.length ∧
    (process_instruction 7 [longAccount] []).1 ≠ .ok () ∧
    (process_instruction 7 [longAccount] []).1 =
      .error (.BorshIoError "Not all bytes read") :=
  ⟨rfl, by decide, fun h => Except.noConfusion h, rfl⟩

/-- Claim C6 (amended): when the first account is owned by the invoking
program and its byte buffer has length exactly 4 bytes — borsh requires
the record to consume the whole buffer — the decode step succeeds and the
handler returns success. -/
theorem c6_exact_width_success (pid : Pubkey) (payload : List Nat)
    (a : AccountInfo) (rest : List AccountInfo)
    (hown : a.owner = pid) (hlen : a.data.length = 4) :
    (∃ g, GreetingAccount.try_from_slice a.data = .ok g) ∧
    (process_instruction pid (a :: rest) payload).1 = .ok () := by
  obtain ⟨b0, b1, b2, b3, hd⟩ := list_length_four a.data hlen
  have hp := process_success pid payload a rest b0 b1 b2 b3 hown hd
  refine ⟨⟨⟨b0 + 2 ^ 8 * b1 + 2 ^ 16 * b2 + 2 ^ 24 * b3⟩, ?_⟩, by rw [hp]⟩
  rw [hd]
  rfl

theorem c6_witness :
    (∃ g, GreetingAccount.try_from_slice (baseAccount 4 [8, 7, 6, 5]).data = .ok g) ∧
    (process_instruction 4 [baseAccount 4 [8, 7, 6, 5]] []).1 = .ok () :=
  c6_exact_width_success 4 [] (baseAccount 4 [8, 7, 6, 5]) [] rfl rfl

/-- Claim C7: codec round trip — decoding the encoding of any record whose
counter fits in 32 bits yields the record back, and any 4-byte buffer of
well-formed bytes decodes to a record whose encoding reproduces the
buffer exactly. -/
theorem c7_roundtrip :
    (∀ g : GreetingAccount, g.counter < 2 ^ 32 →
        GreetingAccount.try_from_slice (u32ToLeBytes g.counter) = .ok g) ∧
    (∀ b : List Nat, b.length = 4 → (∀ x ∈ b, x < 256) →
        ∃ g, GreetingAccount.try_from_slice b = .ok g ∧ u32ToLeBytes g.counter = b) := by
  constructor
  · rintro ⟨c⟩ hc
    rw [try_from_slice_u32ToLeBytes, Nat.mod_eq_of_lt hc]
  · intro b hlen hb
    obtain ⟨b0, b1, b2, b3, rfl⟩ := list_length_four b hlen
    refine ⟨⟨b0 + 2 ^ 8 * b1 + 2 ^ 16 * b2 + 2 ^ 24 * b3⟩, rfl, ?_⟩
    exact u32ToLeBytes_reconstruct b0 b1 b2 b3
      (hb b0 (by simp)) (hb b1 (by simp)) (hb b2 (by simp)) (hb b3 (by simp))

theorem c7_witness :
    GreetingAccount.try_from_slice (u32ToLeBytes (GreetingAccount.mk 42).counter) =
      .ok ⟨42⟩ ∧
    ∃ g, GreetingAccount.try_from_slice [1, 2, 3, 4] = .ok g ∧
      u32ToLeBytes g.counter = [1, 2, 3, 4] :=
  ⟨c7_roundtrip.1 ⟨42⟩ (by decide), c7_roundtrip.2 [1, 2, 3, 4] rfl (by decide)⟩

/-- Claim C8: the increment wraps modulo 2^32 — a successful call on an
owned account whose stored counter is 2^32 - 1 (buffer `FF FF FF FF`)
returns success and leaves the stored counter equal to 0. -/
theorem c8_wraparound (pid : Pubkey) (payload : List Nat) (a : AccountInfo)
    (rest : List AccountInfo) (hown : a.owner = pid)
    (hdata : a.data = [255, 255, 255, 255]) :
    (process_instruction pid (a :: rest) payload).1 = .ok () ∧
    ∃ a', (process_instruction pid (a :: rest) payload).2 = a' :: rest ∧
      a'.data = [0, 0, 0, 0] ∧
      GreetingAccount.try_from_slice a'.data = .ok ⟨0⟩ := by
  have hp := process_success pid payload a rest 255 255 255 255 hown hdata
  have hz : u32ToLeBytes ((255 + 2 ^ 8 * 255 + 2 ^ 16 * 255 + 2 ^ 24 * 255 + 1) % 2 ^ 32)
      = [0, 0, 0, 0] := by decide
  rw [hz] at hp
  exact ⟨by rw [hp], { a with data := [0, 0, 0, 0] }, by rw [hp], rfl, rfl⟩

theorem c8_witness :
    (process_instruction 9 [baseAccount 9 [255, 255, 255, 255]] []).1 = .ok () ∧
    ∃ a', (process_instruction 9 [baseAccount 9 [255, 255, 255, 255]] []).2 = a' :: [] ∧
      a'.data = [0, 0, 0, 0] ∧
      GreetingAccount.try_from_slice a'.data = .ok ⟨0⟩ :=
  c8_wraparound 9 [] (baseAccount 9 [255, 255, 255, 255]) [] rfl rfl

/-- Claim C9: the instruction payload is never inspected — two invocations
agreeing on the program identity and account sequence but with arbitrary
different payloads return the same result and the same final state. -/
theorem c9_payload_ignored (pid : Pubkey) (accounts : List AccountInfo)
    (p1 p2 : List Nat) :
    process_instruction pid accounts p1 = process_instruction pid accounts p2 := rfl

/-- Claim C10: if decoding the first account's buffer succeeds then the
subsequent in-place encode also succeeds (a successful borsh decode forces
the buffer to be exactly the record's width), so the handler can never
return the encode-failure error. -/
theorem c10_encode_unreachable :
    (∀ (b : List Nat) (g : GreetingAccount),
        GreetingAccount.try_from_slice b = .ok g →
        ∀ g' : GreetingAccount, (serializeInto g' b).1 = .ok ()) ∧
    (∀ (pid : Pubkey) (accounts : List AccountInfo) (payload : List Nat),
        (process_instruction pid accounts payload).1 ≠
          .error (.BorshIoError "failed to write whole buffer")) := by
  constructor
  · intro b g hdec g'
    have hlen := try_from_slice_ok_length b g hdec
    simp [serializeInto, hlen]
  · intro pid accounts payload h
    rcases accounts with _ | ⟨a, rest⟩
    · simp [process_instruction] at h
    · by_cases ho : a.owner = pid
      · cases hdec : GreetingAccount.try_from_slice a.data with
        | error e =>
            have h1 : (Except.error e : Except ProgramError Unit) =
                .error (.BorshIoError "failed to write whole buffer") := by
              rw [← h]; simp [process_instruction, ho, hdec]
            rcases try_from_slice_error_cases a.data e hdec with rfl | rfl <;>
              simp at h1
        | ok g =>
            have hlen := try_from_slice_ok_length a.data g hdec
            obtain ⟨b0, b1, b2, b3, hd⟩ := list_length_four a.data hlen
            have hp := process_success pid payload a rest b0 b1 b2 b3 ho hd
            rw [hp] at h
            exact absurd h (by simp)
      · simp [process_instruction, ho] at h

theorem c10_witness :
    (serializeInto ⟨7⟩ [4, 3, 2, 1]).1 = .ok () ∧
    (process_instruction 0 [] []).1 ≠
      .error (.BorshIoError "failed to write whole buffer") :=
  ⟨c10_encode_unreachable.1 [4, 3, 2, 1]
      ⟨4 + 2 ^ 8 * 3 + 2 ^ 16 * 2 + 2 ^ 24 * 1⟩ rfl ⟨7⟩,
   c10_encode_unreachable.2 0 [] []⟩
